import Mathlib

/-!
Shallow embedding of the Tarantool read-view core (src/box/read_view.c and
its header).  Pure C functions become Lean functions; allocation and
deallocation are made explicit through a heap of live object identities, so
that rollback and leak-freedom claims are statable.  Collaborators whose
code is not part of the repository snapshot (engine factories, index
factories, the tuple dictionary and runtime tuple format factories, the
space upgrade object) are modelled by success oracles carried in the
database description, as declared by the header and the spec.
-/

namespace Tarantool

/-- A tuple is modelled by an identity token.  The embedding is pure, so a
tuple value can never be mutated by any operation of this development. -/
abbrev Tuple := Nat

/-- Descriptor of a live index of a space, as seen through the space
index map.  The createOk flag is the oracle for whether the collaborator
call index_create_read_view succeeds on this index. -/
structure IndexDesc where
  iid : Nat
  createOk : Bool
deriving DecidableEq

/-- In-flight space upgrade object (collaborator, abstract).  Modelled from
the spec: the transform supports snapshot, activate, deactivate and apply;
activateOk is the oracle for whether activating its snapshot succeeds. -/
structure SpaceUpgrade where
  activateOk : Bool
deriving DecidableEq

/-- Description of a live space: the per-space metadata read by
space_read_view_new and read_view_add_space_cb.  engineSupportsReadView
stands for the test of ENGINE_SUPPORTS_READ_VIEW on the owning engine;
dictOk and fmtOk are the success oracles of the collaborator factories
tuple_dictionary_new and runtime_tuple_format_new. -/
structure Space where
  sid : Nat
  name : String
  group_id : Nat
  engineSupportsReadView : Bool
  temporary : Bool
  upgrade : Option SpaceUpgrade
  index_id_max : Nat
  index_map : List (Option IndexDesc)
  dictOk : Bool
  fmtOk : Bool
deriving DecidableEq

/-- Description of an engine: whether its flags advertise
ENGINE_SUPPORTS_READ_VIEW and whether engine_create_read_view succeeds. -/
structure EngineDesc where
  supportsReadView : Bool
  createOk : Bool
deriving DecidableEq

/-- Read view creation options (struct read_view_opts).  The filter_arg
pointer of the C structure is folded into the filter closures. -/
structure ReadViewOpts where
  filter_space : Space → Bool
  filter_index : Space → IndexDesc → Bool
  needs_field_names : Bool
  needs_space_upgrade : Bool
  needs_temporary_spaces : Bool

/-- read_view_opts_create: accept-all filters, all flags false. -/
def read_view_opts_create : ReadViewOpts :=
  { filter_space := fun _ => true
    filter_index := fun _ _ => true
    needs_field_names := false
    needs_space_upgrade := false
    needs_temporary_spaces := false }

/-- Identity of the process-wide nameless runtime tuple format
(tuple_format_runtime). -/
def runtimeFormatId : Nat := 0

/-- Allocation state: a fresh-identity counter and multisets of live object
identities, one per object kind the lifecycle claims track.  formatRefs
holds one copy of a format identity per reference this core has taken on
that format. -/
structure Heap where
  nextId : Nat
  liveEngines : Multiset Nat
  liveSpaces : Multiset Nat
  liveIndexes : Multiset Nat
  liveUpgrades : Multiset Nat
  formatRefs : Multiset Nat
deriving DecidableEq

/-- The heap of a freshly started run: nothing live, identities from 1 so
that no allocation collides with runtimeFormatId. -/
def heap0 : Heap :=
  { nextId := 1, liveEngines := 0, liveSpaces := 0, liveIndexes := 0
    liveUpgrades := 0, formatRefs := 0 }

def Heap.allocEngine (h : Heap) : Nat × Heap :=
  (h.nextId, { h with nextId := h.nextId + 1
                      liveEngines := h.nextId ::ₘ h.liveEngines })

def Heap.allocSpace (h : Heap) : Nat × Heap :=
  (h.nextId, { h with nextId := h.nextId + 1
                      liveSpaces := h.nextId ::ₘ h.liveSpaces })

def Heap.allocIndex (h : Heap) : Nat × Heap :=
  (h.nextId, { h with nextId := h.nextId + 1
                      liveIndexes := h.nextId ::ₘ h.liveIndexes })

def Heap.allocUpgrade (h : Heap) : Nat × Heap :=
  (h.nextId, { h with nextId := h.nextId + 1
                      liveUpgrades := h.nextId ::ₘ h.liveUpgrades })

/-- Modelled from the spec: runtime_tuple_format_new wraps a private
field-name dictionary in a fresh runtime tuple format; the new format
starts with no reference held by this core. -/
def Heap.allocFormat (h : Heap) : Nat × Heap :=
  (h.nextId, { h with nextId := h.nextId + 1 })

/-- tuple_format_ref: take one reference on a format. -/
def Heap.tupleFormatRef (h : Heap) (f : Nat) : Heap :=
  { h with formatRefs := f ::ₘ h.formatRefs }

/-- tuple_format_unref: release one reference on a format. -/
def Heap.tupleFormatUnref (h : Heap) (f : Nat) : Heap :=
  { h with formatRefs := h.formatRefs.erase f }

def Heap.freeEngine (h : Heap) (e : Nat) : Heap :=
  { h with liveEngines := h.liveEngines.erase e }

def Heap.freeSpace (h : Heap) (s : Nat) : Heap :=
  { h with liveSpaces := h.liveSpaces.erase s }

def Heap.freeIndex (h : Heap) (i : Nat) : Heap :=
  { h with liveIndexes := h.liveIndexes.erase i }

def Heap.freeUpgrade (h : Heap) (u : Nat) : Heap :=
  { h with liveUpgrades := h.liveUpgrades.erase u }

/-- Read view of one index (struct index_read_view).  Abstract except for its
identity and the back-reference to the owning space read view, stored as
that space read view identity. -/
structure IndexReadView where
  selfId : Nat
  space : Nat
deriving DecidableEq

/-- Snapshot of a space upgrade transform (struct space_upgrade_read_view,
collaborator).  Modelled from the spec: created by
space_upgrade_read_view_new from the in-flight upgrade of the space;
activateOk is copied from it. -/
structure UpgradeRV where
  selfId : Nat
  activateOk : Bool
deriving DecidableEq

/-- Read view of a space (struct space_read_view). -/
structure SpaceReadView where
  selfId : Nat
  id : Nat
  name : String
  formatId : Nat
  upgrade : Option UpgradeRV
  group_id : Nat
  index_id_max : Nat
  index_map : List (Option IndexReadView)
deriving DecidableEq

/-- space_read_view_index: null for any id above index_id_max, otherwise
the (possibly null) slot of the index map.  The bound is tested before the
array is consulted, exactly as in the header. -/
def space_read_view_index (srv : SpaceReadView) (id : Nat) :
    Option IndexReadView :=
  if id ≤ srv.index_id_max then srv.index_map.getD id none else none

/-- index_create_read_view (collaborator): on success allocates a fresh
index read view; the back-reference is written by the caller afterwards,
as in the source loop. -/
def index_create_read_view (idx : IndexDesc) (h : Heap) :
    Option IndexReadView × Heap :=
  if idx.createOk then
    let a := h.allocIndex
    (some { selfId := a.1, space := 0 }, a.2)
  else (none, h)

/-- The index-map loop of space_read_view_new: walk the space index map in
slot order; null or filtered-out slots stay null; an accepted index gets an
index read view whose back-reference is set to the space read view
identity.  A factory failure leaves this slot and all later slots null
(the array was zeroed) and stops the walk with failure. -/
def space_rv_build_index_map (space : Space) (opts : ReadViewOpts)
    (spaceRvId : Nat) :
    List (Option IndexDesc) → Heap → Bool × List (Option IndexReadView) × Heap
  | [], h => (true, [], h)
  | none :: rest, h =>
    let r := space_rv_build_index_map space opts spaceRvId rest h
    (r.1, none :: r.2.1, r.2.2)
  | some idx :: rest, h =>
    if opts.filter_index space idx then
      match index_create_read_view idx h with
      | (some irv, h1) =>
        let irv2 := { irv with space := spaceRvId }
        let r := space_rv_build_index_map space opts spaceRvId rest h1
        (r.1, some irv2 :: r.2.1, r.2.2)
      | (none, h1) => (false, none :: rest.map (fun _ => none), h1)
    else
      let r := space_rv_build_index_map space opts spaceRvId rest h
      (r.1, none :: r.2.1, r.2.2)

/-- space_read_view_delete: delete every non-null index slot, delete the
upgrade snapshot if present, release the format reference, free the space
read view itself. -/
def space_read_view_delete (srv : SpaceReadView) (h : Heap) : Heap :=
  let h1 := srv.index_map.foldl
    (fun h slot =>
      match slot with
      | some irv => h.freeIndex irv.selfId
      | none => h) h
  let h2 :=
    match srv.upgrade with
    | some u => h1.freeUpgrade u.selfId
    | none => h1
  let h3 := h2.tupleFormatUnref srv.formatId
  h3.freeSpace srv.selfId

/-- The format resolution block of space_read_view_new: with
needs_field_names build a private field-name dictionary from the space
field definitions (fallible), wrap it in a fresh runtime tuple format
(fallible), release the intermediate dictionary reference; otherwise take
the shared nameless runtime format. -/
def space_rv_resolve_format (space : Space) (opts : ReadViewOpts)
    (h : Heap) : Option Nat × Heap :=
  if opts.needs_field_names then
    if space.dictOk then
      if space.fmtOk then
        let a := h.allocFormat
        (some a.1, a.2)
      else (none, h)
    else (none, h)
  else (some runtimeFormatId, h)

/-- The upgrade resolution block of space_read_view_new: with
needs_space_upgrade and an in-flight upgrade on the space, snapshot the
upgrade (space_upgrade_read_view_new, asserted to succeed); otherwise no
upgrade snapshot. -/
def space_rv_resolve_upgrade (space : Space) (opts : ReadViewOpts)
    (h : Heap) : Option UpgradeRV × Heap :=
  if opts.needs_space_upgrade then
    match space.upgrade with
    | some u =>
      let a := h.allocUpgrade
      (some { selfId := a.1, activateOk := u.activateOk }, a.2)
    | none => (none, h)
  else (none, h)

/-- space_read_view_new: resolve the tuple format (a fresh private runtime
format when needs_field_names, else the shared nameless runtime format),
snapshot the in-flight upgrade when requested and present, allocate the
space read view, reference the format, then build the index map; on index
factory failure tear the part-built space read view down and fail. -/
def space_read_view_new (space : Space) (opts : ReadViewOpts) (h : Heap) :
    Option SpaceReadView × Heap :=
  match space_rv_resolve_format space opts h with
  | (none, h1) => (none, h1)
  | (some format, h1) =>
    let upgRes := space_rv_resolve_upgrade space opts h1
    let upgrade := upgRes.1
    let a := upgRes.2.allocSpace
    let sid := a.1
    let h3 := a.2.tupleFormatRef format
    let r := space_rv_build_index_map space opts sid space.index_map h3
    let srv : SpaceReadView :=
      { selfId := sid, id := space.sid, name := space.name
        formatId := format, upgrade := upgrade, group_id := space.group_id
        index_id_max := space.index_id_max, index_map := r.2.1 }
    if r.1 then (some srv, r.2.2) else (none, space_read_view_delete srv r.2.2)

/-- Read view of the entire database (struct read_view): engine read view
identities and space read views in creation order, plus the owning thread
(a cord identity, null unless activated). -/
structure ReadView where
  engines : List Nat
  spaces : List SpaceReadView
  owner : Option Nat
deriving DecidableEq

/-- The eligibility test of the spec: capable engine, not temporary unless
requested, accepted by the space filter. -/
def space_is_eligible (opts : ReadViewOpts) (s : Space) : Bool :=
  s.engineSupportsReadView &&
  (!s.temporary || opts.needs_temporary_spaces) &&
  opts.filter_space s

/-- read_view_add_space_cb: skip (returning success) any space whose engine
lacks read view support, or that is temporary while temporary spaces were
not requested, or that the space filter rejects; otherwise build its space
read view and append it to the read view space list. -/
def read_view_add_space_cb (opts : ReadViewOpts) (space : Space)
    (rv : ReadView) (h : Heap) : Bool × ReadView × Heap :=
  if !space.engineSupportsReadView ||
     (space.temporary && !opts.needs_temporary_spaces) ||
     !opts.filter_space space then
    (true, rv, h)
  else
    match space_read_view_new space opts h with
    | (none, h1) => (false, rv, h1)
    | (some srv, h1) => (true, { rv with spaces := rv.spaces ++ [srv] }, h1)

/-- The engine walk of read_view_open: engines without read view support
are silently skipped; a factory failure stops the walk with failure. -/
def read_view_open_engines (opts : ReadViewOpts) :
    List EngineDesc → ReadView → Heap → Bool × ReadView × Heap
  | [], rv, h => (true, rv, h)
  | e :: rest, rv, h =>
    if !e.supportsReadView then read_view_open_engines opts rest rv h
    else if e.createOk then
      let a := h.allocEngine
      read_view_open_engines opts rest
        { rv with engines := rv.engines ++ [a.1] } a.2
    else (false, rv, h)

/-- space_foreach over the space registry: run the callback on every space
in registry order, aborting on the first failure. -/
def space_foreach (opts : ReadViewOpts) :
    List Space → ReadView → Heap → Bool × ReadView × Heap
  | [], rv, h => (true, rv, h)
  | s :: rest, rv, h =>
    match read_view_add_space_cb opts s rv h with
    | (true, rv1, h1) => space_foreach opts rest rv1 h1
    | (false, rv1, h1) => (false, rv1, h1)

/-- read_view_close: delete every space read view in list order, then every
engine read view in list order. -/
def read_view_close (rv : ReadView) (h : Heap) : Heap :=
  let h1 := rv.spaces.foldl (fun h srv => space_read_view_delete srv h) h
  rv.engines.foldl (fun h e => h.freeEngine e) h1

/-- read_view_open: start from an empty read view with no owner, create an
engine read view for every capable engine, then add every eligible space;
on any failure close the part-built read view and fail, yielding no
object. -/
def read_view_open (engines : List EngineDesc) (spaceList : List Space)
    (opts : ReadViewOpts) (h : Heap) : Bool × Option ReadView × Heap :=
  let rv0 : ReadView := { engines := [], spaces := [], owner := none }
  match read_view_open_engines opts engines rv0 h with
  | (false, rv1, h1) => (false, none, read_view_close rv1 h1)
  | (true, rv1, h1) =>
    match space_foreach opts spaceList rv1 h1 with
    | (false, rv2, h2) => (false, none, read_view_close rv2 h2)
    | (true, rv2, h2) => (true, some rv2, h2)

/-- Observable calls the activation machinery makes, in order: writing the
owner field, activating an upgrade snapshot, deactivating one. -/
inductive Event where
  | setOwner : Option Nat → Event
  | activateUpgrade : Nat → Event
  | deactivateUpgrade : Nat → Event
deriving DecidableEq

/-- The upgrade snapshot identities of a list of space read views, in list
order, skipping spaces without an upgrade. -/
def upgrade_ids (ss : List SpaceReadView) : List Nat :=
  ss.filterMap (fun srv => srv.upgrade.map (fun u => u.selfId))

/-- The upgrade snapshot identities of the spaces of a read view, in space
list order (the loop bodies of read_view_activate and
read_view_deactivate visit exactly these). -/
def space_upgrades (rv : ReadView) : List Nat :=
  upgrade_ids rv.spaces

/-- read_view_deactivate: clear the owner field to null, then deactivate
the upgrade snapshot of every space, in list order.  The set of active
upgrade identities and the emitted call trace are returned alongside. -/
def read_view_deactivate (rv : ReadView) (act : List Nat) :
    ReadView × List Nat × List Event :=
  let rv1 := { rv with owner := none }
  let act1 := (space_upgrades rv1).foldl (fun a uid => a.erase uid) act
  (rv1, act1, Event.setOwner none ::
    (space_upgrades rv1).map Event.deactivateUpgrade)

/-- The space loop of read_view_activate: activate the upgrade snapshot of
each space in list order; on the first activation failure call
read_view_deactivate on the whole read view and fail. -/
def read_view_activate_loop (rv : ReadView) :
    List SpaceReadView → List Nat → List Event →
    Bool × ReadView × List Nat × List Event
  | [], act, tr => (true, rv, act, tr)
  | srv :: rest, act, tr =>
    match srv.upgrade with
    | none => read_view_activate_loop rv rest act tr
    | some u =>
      if u.activateOk then
        read_view_activate_loop rv rest (u.selfId :: act)
          (tr ++ [Event.activateUpgrade u.selfId])
      else
        let d := read_view_deactivate rv act
        (false, d.1, d.2.1, tr ++ d.2.2)

/-- read_view_activate: set the owner field to the calling thread, then
activate the upgrade snapshot of every space in list order; on failure
read_view_deactivate restores the prior state and the call fails. -/
def read_view_activate (caller : Nat) (rv : ReadView) (act : List Nat) :
    Bool × ReadView × List Nat × List Event :=
  let rv1 := { rv with owner := some caller }
  read_view_activate_loop rv1 rv1.spaces act
    [Event.setOwner (some caller)]

/-- read_view_process_result: with an upgrade snapshot present apply it to
the tuple (the collaborator apply may fail, yielding null); without one
return the input tuple itself.  The apply semantics of the collaborator
space_upgrade_read_view_apply is a parameter keyed by upgrade identity. -/
def read_view_process_result (apply : Nat → Tuple → Option Tuple)
    (srv : SpaceReadView) (tuple : Tuple) : Option Tuple :=
  match srv.upgrade with
  | some u => apply u.selfId tuple
  | none => some tuple

/-- The debug assertions at the head of read_view_process_result, with the
tuple argument taken as a nullable pointer: the tuple must be non-null and
the caller must be the owner of the read view.  These checks exist only in
non-optimized builds. -/
def read_view_process_result_debug_checks (owner : Option Nat)
    (caller : Nat) (tuple : Option Tuple) : Bool :=
  tuple.isSome && (owner == some caller)

/-- Whether an index-map slot of a space holds an index that the index
filter accepts: the acceptance test of the index-map loop. -/
def slot_accepted (opts : ReadViewOpts) (space : Space)
    (slot : Option IndexDesc) : Bool :=
  match slot with
  | some idx => opts.filter_index space idx
  | none => false

/-- The identities of the index read views held by the non-null slots of an
index map, in slot order. -/
def index_map_ids (m : List (Option IndexReadView)) : List Nat :=
  m.filterMap (fun s => s.map (fun irv => irv.selfId))

/-- Modelled from the spec: the call order the spec ascribes to
read_view_deactivate: deactivate the upgrade transform of every space
first, then clear the owning thread. -/
def read_view_deactivate_claimed_trace (rv : ReadView) : List Event :=
  (space_upgrades rv).map Event.deactivateUpgrade ++ [Event.setOwner none]

/-- The space read view identities reachable from a read view. -/
def rv_space_ids (rv : ReadView) : List Nat :=
  rv.spaces.map SpaceReadView.selfId

/-- The index read view identities reachable from a read view. -/
def rv_index_ids (rv : ReadView) : Multiset Nat :=
  (rv.spaces.map
    (fun srv => (↑(index_map_ids srv.index_map) : Multiset Nat))).sum

/-- The format references held by the space read views of a read view. -/
def rv_format_ids (rv : ReadView) : List Nat :=
  rv.spaces.map SpaceReadView.formatId

/-- The live objects of a heap are exactly those of a base heap plus the
footprint of a read view under construction. -/
def heap_inv (h0 : Heap) (rv : ReadView) (h : Heap) : Prop :=
  h.liveEngines = (↑rv.engines : Multiset Nat) + h0.liveEngines ∧
  h.liveSpaces = (↑(rv_space_ids rv) : Multiset Nat) + h0.liveSpaces ∧
  h.liveIndexes = rv_index_ids rv + h0.liveIndexes ∧
  h.liveUpgrades =
    (↑(upgrade_ids rv.spaces) : Multiset Nat) + h0.liveUpgrades ∧
  h.formatRefs = (↑(rv_format_ids rv) : Multiset Nat) + h0.formatRefs

/-! Concrete sample data used by counterexamples and witnesses. -/

def sampleIndex0 : IndexDesc := { iid := 0, createOk := true }

def sampleIndex1 : IndexDesc := { iid := 1, createOk := true }

def sampleIndexBad : IndexDesc := { iid := 1, createOk := false }

def sampleEngine : EngineDesc := { supportsReadView := true, createOk := true }

def sampleEngineBad : EngineDesc :=
  { supportsReadView := true, createOk := false }

def sampleSpace : Space :=
  { sid := 512
    name := "s"
    group_id := 0
    engineSupportsReadView := true
    temporary := false
    upgrade := none
    index_id_max := 1
    index_map := [some sampleIndex0, some sampleIndex1]
    dictOk := true
    fmtOk := true }

def sampleSpaceTemp : Space := { sampleSpace with sid := 513, temporary := true }

def sampleSpaceBad : Space :=
  { sampleSpace with sid := 514
                     index_map := [some sampleIndex0, some sampleIndexBad] }

/-- Options accepting everything, all flags false, with executable
filters. -/
def sampleOpts : ReadViewOpts := read_view_opts_create

/-- Options accepting everything but rejecting every index. -/
def sampleOptsNoIndexes : ReadViewOpts :=
  { read_view_opts_create with filter_index := fun _ _ => false }

/-- Options accepting indexes with even iid only. -/
def sampleOptsEvenIndexes : ReadViewOpts :=
  { read_view_opts_create with filter_index := fun _ idx => idx.iid % 2 == 0 }

def sampleOptsNames : ReadViewOpts :=
  { read_view_opts_create with needs_field_names := true }

def sampleSrvNoUpgrade : SpaceReadView :=
  { selfId := 3, id := 512, name := "s", formatId := 0, upgrade := none
    group_id := 0, index_id_max := 0, index_map := [none] }

def sampleSrvUpgradeOk : SpaceReadView :=
  { sampleSrvNoUpgrade with selfId := 4
                            upgrade := some { selfId := 10, activateOk := true } }

def sampleSrvUpgradeBad : SpaceReadView :=
  { sampleSrvNoUpgrade with selfId := 5
                            upgrade := some { selfId := 11, activateOk := false } }

/-- A read view with one upgraded space, activated by thread 7. -/
def sampleRvActive : ReadView :=
  { engines := [1], spaces := [sampleSrvUpgradeOk], owner := some 7 }

/-- An inactive read view whose first space activates fine and whose second
space fails to activate. -/
def sampleRvFailing : ReadView :=
  { engines := [1], spaces := [sampleSrvUpgradeOk, sampleSrvUpgradeBad]
    owner := none }

/-- Space read view construction over sampleSpace with the even-iid index
filter, used by witnesses. -/
def sampleNewEven : Option SpaceReadView × Heap :=
  space_read_view_new sampleSpace sampleOptsEvenIndexes heap0

def sampleSrvEven : SpaceReadView := sampleNewEven.1.getD sampleSrvNoUpgrade

def sampleHeapEven : Heap := sampleNewEven.2

/-- Space read view construction over sampleSpace with the all-rejecting
index filter, used by witnesses. -/
def sampleNewNoIdx : Option SpaceReadView × Heap :=
  space_read_view_new sampleSpace sampleOptsNoIndexes heap0

def sampleSrvNoIdx : SpaceReadView := sampleNewNoIdx.1.getD sampleSrvNoUpgrade

def sampleHeapNoIdx : Heap := sampleNewNoIdx.2

/-- Two successive space read view constructions over sampleSpace with
needs_field_names set, used by witnesses. -/
def sampleNewNames1 : Option SpaceReadView × Heap :=
  space_read_view_new sampleSpace sampleOptsNames heap0

def sampleSrvNames1 : SpaceReadView :=
  sampleNewNames1.1.getD sampleSrvNoUpgrade

def sampleHeapNames1 : Heap := sampleNewNames1.2

def sampleNewNames2 : Option SpaceReadView × Heap :=
  space_read_view_new sampleSpace sampleOptsNames sampleHeapNames1

def sampleSrvNames2 : SpaceReadView :=
  sampleNewNames2.1.getD sampleSrvNoUpgrade

def sampleHeapNames2 : Heap := sampleNewNames2.2

/-- A full open that fails at the second index of its only space, used by
the rollback witness. -/
def sampleOpenFail : Bool × Option ReadView × Heap :=
  read_view_open [sampleEngine] [sampleSpaceBad] sampleOpts heap0

/-! Lemmas about the index-map loop. -/

lemma getD_map_const_none :
    ∀ (l : List (Option IndexDesc)) (i : Nat),
    (l.map (fun _ => (none : Option IndexReadView))).getD i none = none := by
  intro l
  induction l with
  | nil => intro i; rfl
  | cons a l ih =>
    intro i
    cases i with
    | zero => rfl
    | succ j => simp [ih j]

lemma index_map_ids_map_const (l : List (Option IndexDesc)) :
    index_map_ids (l.map (fun _ => (none : Option IndexReadView))) = [] := by
  induction l with
  | nil => rfl
  | cons a l ih => simp [index_map_ids]

lemma build_imap_length (space : Space) (opts : ReadViewOpts) (sid : Nat) :
    ∀ (slots : List (Option IndexDesc)) (h : Heap),
    (space_rv_build_index_map space opts sid slots h).2.1.length =
      slots.length := by
  intro slots
  induction slots with
  | nil => intro h; rfl
  | cons slot rest ih =>
    intro h
    cases slot with
    | none => simp [space_rv_build_index_map, ih]
    | some idx =>
      by_cases hf : opts.filter_index space idx
      · cases hc : idx.createOk
        · simp [space_rv_build_index_map, hf, index_create_read_view, hc]
        · simp [space_rv_build_index_map, hf, index_create_read_view, hc, ih]
      · simp [space_rv_build_index_map, hf, ih]

lemma build_imap_backref (space : Space) (opts : ReadViewOpts) (sid : Nat) :
    ∀ (slots : List (Option IndexDesc)) (h : Heap) (i : Nat)
      (irv : IndexReadView),
    (space_rv_build_index_map space opts sid slots h).2.1.getD i none =
      some irv → irv.space = sid := by
  intro slots
  induction slots with
  | nil =>
    intro h i irv hi
    simp [space_rv_build_index_map] at hi
  | cons slot rest ih =>
    intro h i irv hi
    cases slot with
    | none =>
      cases i with
      | zero => simp [space_rv_build_index_map] at hi
      | succ j =>
        refine ih h j irv ?_
        simpa [space_rv_build_index_map] using hi
    | some idx =>
      by_cases hf : opts.filter_index space idx
      · cases hc : idx.createOk
        · cases i with
          | zero =>
            simp [space_rv_build_index_map, hf, index_create_read_view,
              hc] at hi
          | succ j =>
            simp [space_rv_build_index_map, hf, index_create_read_view, hc,
              getD_map_const_none] at hi
        · cases i with
          | zero =>
            simp [space_rv_build_index_map, hf, index_create_read_view,
              hc] at hi
            cases hi
            rfl
          | succ j =>
            refine ih h.allocIndex.2 j irv ?_
            simpa [space_rv_build_index_map, hf, index_create_read_view,
              hc] using hi
      · cases i with
        | zero => simp [space_rv_build_index_map, hf] at hi
        | succ j =>
          refine ih h j irv ?_
          simpa [space_rv_build_index_map, hf] using hi

lemma build_imap_isSome (space : Space) (opts : ReadViewOpts) (sid : Nat) :
    ∀ (slots : List (Option IndexDesc)) (h : Heap),
    (space_rv_build_index_map space opts sid slots h).1 = true →
    ∀ i,
    ((space_rv_build_index_map space opts sid slots h).2.1.getD i
      none).isSome = slot_accepted opts space (slots.getD i none) := by
  intro slots
  induction slots with
  | nil =>
    intro h _ i
    simp [space_rv_build_index_map, slot_accepted]
  | cons slot rest ih =>
    intro h hok i
    cases slot with
    | none =>
      cases i with
      | zero => simp [space_rv_build_index_map, slot_accepted]
      | succ j =>
        have hok2 : (space_rv_build_index_map space opts sid rest h).1 =
            true := by
          simpa [space_rv_build_index_map] using hok
        simpa [space_rv_build_index_map] using ih h hok2 j
    | some idx =>
      by_cases hf : opts.filter_index space idx
      · cases hc : idx.createOk
        · exfalso
          simp [space_rv_build_index_map, hf, index_create_read_view,
            hc] at hok
        · cases i with
          | zero =>
            simp [space_rv_build_index_map, hf, index_create_read_view, hc,
              slot_accepted]
          | succ j =>
            have hok2 : (space_rv_build_index_map space opts sid rest
                h.allocIndex.2).1 = true := by
              simpa [space_rv_build_index_map, hf, index_create_read_view,
                hc] using hok
            simpa [space_rv_build_index_map, hf, index_create_read_view,
              hc] using ih h.allocIndex.2 hok2 j
      · cases i with
        | zero => simp [space_rv_build_index_map, hf, slot_accepted]
        | succ j =>
          have hok2 : (space_rv_build_index_map space opts sid rest h).1 =
              true := by
            simpa [space_rv_build_index_map, hf] using hok
          simpa [space_rv_build_index_map, hf] using ih h hok2 j

lemma coe_cons_add (a : Nat) (l : List Nat) (X : Multiset Nat) :
    ((a :: l : List Nat) : Multiset Nat) + X = a ::ₘ ((l : Multiset Nat) + X) := by
  rw [← Multiset.cons_coe, Multiset.cons_add]

lemma index_map_ids_cons_some (irv : IndexReadView)
    (m : List (Option IndexReadView)) :
    index_map_ids (some irv :: m) = irv.selfId :: index_map_ids m := by
  simp [index_map_ids]

lemma index_map_ids_cons_none (m : List (Option IndexReadView)) :
    index_map_ids (none :: m) = index_map_ids m := by
  simp [index_map_ids]

lemma index_map_ids_replicate (n : Nat) :
    index_map_ids (List.replicate n (none : Option IndexReadView)) = [] := by
  induction n with
  | zero => rfl
  | succ k ih => simp [index_map_ids, List.replicate]

lemma build_imap_heap (space : Space) (opts : ReadViewOpts) (sid : Nat) :
    ∀ (slots : List (Option IndexDesc)) (h : Heap),
    (space_rv_build_index_map space opts sid slots h).2.2.liveIndexes =
      (↑(index_map_ids
          (space_rv_build_index_map space opts sid slots h).2.1) :
        Multiset Nat) + h.liveIndexes ∧
    (space_rv_build_index_map space opts sid slots h).2.2.liveEngines =
      h.liveEngines ∧
    (space_rv_build_index_map space opts sid slots h).2.2.liveSpaces =
      h.liveSpaces ∧
    (space_rv_build_index_map space opts sid slots h).2.2.liveUpgrades =
      h.liveUpgrades ∧
    (space_rv_build_index_map space opts sid slots h).2.2.formatRefs =
      h.formatRefs ∧
    h.nextId ≤
      (space_rv_build_index_map space opts sid slots h).2.2.nextId := by
  intro slots
  induction slots with
  | nil =>
    intro h
    simp [space_rv_build_index_map, index_map_ids]
  | cons slot rest ih =>
    intro h
    cases slot with
    | none =>
      obtain ⟨i1, i2, i3, i4, i5, i6⟩ := ih h
      simpa [space_rv_build_index_map, index_map_ids_cons_none] using
        ⟨i1, i2, i3, i4, i5, i6⟩
    | some idx =>
      by_cases hf : opts.filter_index space idx
      · cases hc : idx.createOk
        · simp [space_rv_build_index_map, hf, index_create_read_view, hc,
            index_map_ids_cons_none, index_map_ids_map_const,
            index_map_ids_replicate]
        · obtain ⟨i1, i2, i3, i4, i5, i6⟩ := ih h.allocIndex.2
          have hle : h.nextId ≤
              (space_rv_build_index_map space opts sid rest
                h.allocIndex.2).2.2.nextId :=
            le_trans (Nat.le_succ h.nextId) i6
          have ha1 : h.allocIndex.1 = h.nextId := rfl
          have haIdx : h.allocIndex.2.liveIndexes =
              h.nextId ::ₘ h.liveIndexes := rfl
          have haEng : h.allocIndex.2.liveEngines = h.liveEngines := rfl
          have haSp : h.allocIndex.2.liveSpaces = h.liveSpaces := rfl
          have haUp : h.allocIndex.2.liveUpgrades = h.liveUpgrades := rfl
          have haFmt : h.allocIndex.2.formatRefs = h.formatRefs := rfl
          refine ⟨?_, ?_, ?_, ?_, ?_, ?_⟩ <;>
            simp [space_rv_build_index_map, hf, index_create_read_view, hc,
              index_map_ids_cons_some, i1, i2, i3, i4, i5, hle, ha1, haIdx,
              haEng, haSp, haUp, haFmt, coe_cons_add, Multiset.add_cons]
      · obtain ⟨i1, i2, i3, i4, i5, i6⟩ := ih h
        simpa [space_rv_build_index_map, hf, index_map_ids_cons_none] using
          ⟨i1, i2, i3, i4, i5, i6⟩

/-! Lemmas about teardown and the resolution blocks. -/

lemma fold_free_slots :
    ∀ (m : List (Option IndexReadView)) (h : Heap),
    (m.foldl (fun h slot =>
      match slot with
      | some irv => h.freeIndex irv.selfId
      | none => h) h) =
    { h with liveIndexes :=
        h.liveIndexes - (↑(index_map_ids m) : Multiset Nat) } := by
  intro m
  induction m with
  | nil => intro h; simp [index_map_ids]
  | cons slot rest ih =>
    intro h
    cases slot with
    | none => simp [index_map_ids_cons_none, ih]
    | some irv =>
      rw [List.foldl_cons, ih]
      simp [Heap.freeIndex, index_map_ids_cons_some, ← Multiset.cons_coe,
        Multiset.sub_cons]

lemma space_read_view_delete_effect (srv : SpaceReadView) (h : Heap) :
    space_read_view_delete srv h =
      { h with
        liveIndexes :=
          h.liveIndexes - (↑(index_map_ids srv.index_map) : Multiset Nat)
        liveUpgrades :=
          match srv.upgrade with
          | some u => h.liveUpgrades.erase u.selfId
          | none => h.liveUpgrades
        formatRefs := h.formatRefs.erase srv.formatId
        liveSpaces := h.liveSpaces.erase srv.selfId } := by
  unfold space_read_view_delete
  rw [fold_free_slots]
  cases hu : srv.upgrade <;>
    simp [Heap.freeUpgrade, Heap.tupleFormatUnref, Heap.freeSpace]

lemma resolve_format_effect (s : Space) (opts : ReadViewOpts) (h : Heap) :
    (space_rv_resolve_format s opts h).2.liveEngines = h.liveEngines ∧
    (space_rv_resolve_format s opts h).2.liveSpaces = h.liveSpaces ∧
    (space_rv_resolve_format s opts h).2.liveIndexes = h.liveIndexes ∧
    (space_rv_resolve_format s opts h).2.liveUpgrades = h.liveUpgrades ∧
    (space_rv_resolve_format s opts h).2.formatRefs = h.formatRefs ∧
    h.nextId ≤ (space_rv_resolve_format s opts h).2.nextId := by
  unfold space_rv_resolve_format
  by_cases hn : opts.needs_field_names <;>
    by_cases hd : s.dictOk <;> by_cases hm : s.fmtOk <;>
      simp [hn, hd, hm, Heap.allocFormat]

lemma resolve_format_of_shared (s : Space) (opts : ReadViewOpts) (h : Heap)
    (hn : opts.needs_field_names = false) :
    space_rv_resolve_format s opts h = (some runtimeFormatId, h) := by
  simp [space_rv_resolve_format, hn]

lemma resolve_format_of_private (s : Space) (opts : ReadViewOpts) (h : Heap)
    (hn : opts.needs_field_names = true) (hd : s.dictOk = true)
    (hm : s.fmtOk = true) :
    space_rv_resolve_format s opts h =
      (some h.nextId, { h with nextId := h.nextId + 1 }) := by
  simp [space_rv_resolve_format, hn, hd, hm, Heap.allocFormat]

lemma resolve_format_of_fail (s : Space) (opts : ReadViewOpts) (h : Heap)
    (hn : opts.needs_field_names = true)
    (hfail : s.dictOk = false ∨ s.fmtOk = false) :
    space_rv_resolve_format s opts h = (none, h) := by
  rcases hfail with hd | hm
  · simp [space_rv_resolve_format, hn, hd]
  · by_cases hd : s.dictOk <;> simp [space_rv_resolve_format, hn, hd, hm]

lemma resolve_upgrade_effect (s : Space) (opts : ReadViewOpts) (h : Heap) :
    (space_rv_resolve_upgrade s opts h).2.liveEngines = h.liveEngines ∧
    (space_rv_resolve_upgrade s opts h).2.liveSpaces = h.liveSpaces ∧
    (space_rv_resolve_upgrade s opts h).2.liveIndexes = h.liveIndexes ∧
    (space_rv_resolve_upgrade s opts h).2.formatRefs = h.formatRefs ∧
    ((space_rv_resolve_upgrade s opts h).2.liveUpgrades =
      match (space_rv_resolve_upgrade s opts h).1 with
      | some u => u.selfId ::ₘ h.liveUpgrades
      | none => h.liveUpgrades) ∧
    h.nextId ≤ (space_rv_resolve_upgrade s opts h).2.nextId := by
  unfold space_rv_resolve_upgrade
  by_cases hn : opts.needs_space_upgrade <;> cases hu : s.upgrade <;>
    simp [hn, hu, Heap.allocUpgrade]

lemma resolve_format_none (s : Space) (opts : ReadViewOpts) (h h1 : Heap)
    (heq : space_rv_resolve_format s opts h = (none, h1)) : h1 = h := by
  unfold space_rv_resolve_format at heq
  by_cases hn : opts.needs_field_names <;>
    by_cases hd : s.dictOk <;> by_cases hm : s.fmtOk <;>
      simp [hn, hd, hm, Heap.allocFormat] at heq <;> simp [heq]

/-- Structural facts about a successfully built space read view: the
copied metadata, the index-map length, the back-references, and which
slots are populated. -/
lemma space_read_view_new_success (s : Space) (opts : ReadViewOpts)
    (h : Heap) (srv : SpaceReadView) (h2 : Heap)
    (hnew : space_read_view_new s opts h = (some srv, h2)) :
    srv.id = s.sid ∧ srv.name = s.name ∧ srv.group_id = s.group_id ∧
    srv.index_id_max = s.index_id_max ∧
    srv.index_map.length = s.index_map.length ∧
    (∀ i irv, srv.index_map.getD i none = some irv →
      irv.space = srv.selfId) ∧
    (∀ i, (srv.index_map.getD i none).isSome =
      slot_accepted opts s (s.index_map.getD i none)) := by
  unfold space_read_view_new at hnew
  split at hnew
  · simp at hnew
  · next fmt h1 heq =>
    simp only [] at hnew
    split at hnew
    · next hr =>
      simp only [Prod.mk.injEq, Option.some.injEq] at hnew
      obtain ⟨rfl, rfl⟩ := hnew
      refine ⟨rfl, rfl, rfl, rfl, ?_, ?_, ?_⟩
      · exact build_imap_length s opts _ s.index_map _
      · intro i irv hi
        exact build_imap_backref s opts _ s.index_map _ i irv hi
      · intro i
        exact build_imap_isSome s opts _ s.index_map _ hr i
    · simp at hnew

/-- Heap effect of a successful space read view construction: it adds
exactly the footprint of the new space read view. -/
lemma space_read_view_new_heap_success (s : Space) (opts : ReadViewOpts)
    (h : Heap) (srv : SpaceReadView) (h2 : Heap)
    (hnew : space_read_view_new s opts h = (some srv, h2)) :
    h2.liveEngines = h.liveEngines ∧
    h2.liveSpaces = srv.selfId ::ₘ h.liveSpaces ∧
    h2.liveIndexes =
      (↑(index_map_ids srv.index_map) : Multiset Nat) + h.liveIndexes ∧
    (h2.liveUpgrades =
      match srv.upgrade with
      | some u => u.selfId ::ₘ h.liveUpgrades
      | none => h.liveUpgrades) ∧
    h2.formatRefs = srv.formatId ::ₘ h.formatRefs ∧
    h.nextId ≤ h2.nextId := by
  unfold space_read_view_new at hnew
  split at hnew
  · simp at hnew
  · next fmt h1 heq =>
    have hfe := resolve_format_effect s opts h
    rw [heq] at hfe
    dsimp only at hfe
    obtain ⟨f1, f2, f3, f4, f5, f6⟩ := hfe
    have hue := resolve_upgrade_effect s opts h1
    obtain ⟨u1, u2, u3, u4, u5, u6⟩ := hue
    obtain ⟨b1, b2, b3, b4, b5, b6⟩ :=
      build_imap_heap s opts
        ((space_rv_resolve_upgrade s opts h1).2.allocSpace.1) s.index_map
        ((space_rv_resolve_upgrade s opts h1).2.allocSpace.2.tupleFormatRef
          fmt)
    simp only [] at hnew
    split at hnew
    · next hr =>
      simp only [Prod.mk.injEq, Option.some.injEq] at hnew
      obtain ⟨rfl, rfl⟩ := hnew
      refine ⟨?_, ?_, ?_, ?_, ?_, ?_⟩
      · rw [b2]
        simp [Heap.tupleFormatRef, Heap.allocSpace, u1, f1]
      · rw [b3]
        simp [Heap.tupleFormatRef, Heap.allocSpace, u2, f2]
      · rw [b1]
        simp [Heap.tupleFormatRef, Heap.allocSpace, u3, f3]
      · rw [b4]
        simp only [Heap.tupleFormatRef, Heap.allocSpace, u5, f4]
      · rw [b5]
        simp [Heap.tupleFormatRef, Heap.allocSpace, u4, f5]
      · refine le_trans f6 (le_trans u6 (le_trans ?_ b6))
        simp [Heap.tupleFormatRef, Heap.allocSpace]
    · simp at hnew

/-- Heap effect of a failed space read view construction: everything
allocated on the way is freed again. -/
lemma space_read_view_new_heap_fail (s : Space) (opts : ReadViewOpts)
    (h : Heap) (h2 : Heap)
    (hnew : space_read_view_new s opts h = (none, h2)) :
    h2.liveEngines = h.liveEngines ∧ h2.liveSpaces = h.liveSpaces ∧
    h2.liveIndexes = h.liveIndexes ∧ h2.liveUpgrades = h.liveUpgrades ∧
    h2.formatRefs = h.formatRefs ∧ h.nextId ≤ h2.nextId := by
  unfold space_read_view_new at hnew
  split at hnew
  · next h1 heq =>
    have hh1 : h1 = h := resolve_format_none s opts h h1 heq
    subst hh1
    simp only [Prod.mk.injEq, true_and] at hnew
    subst hnew
    exact ⟨rfl, rfl, rfl, rfl, rfl, le_refl _⟩
  · next fmt h1 heq =>
    have hfe := resolve_format_effect s opts h
    rw [heq] at hfe
    dsimp only at hfe
    obtain ⟨f1, f2, f3, f4, f5, f6⟩ := hfe
    obtain ⟨u1, u2, u3, u4, u5, u6⟩ := resolve_upgrade_effect s opts h1
    obtain ⟨b1, b2, b3, b4, b5, b6⟩ :=
      build_imap_heap s opts
        ((space_rv_resolve_upgrade s opts h1).2.allocSpace.1) s.index_map
        ((space_rv_resolve_upgrade s opts h1).2.allocSpace.2.tupleFormatRef
          fmt)
    simp only [] at hnew
    split at hnew
    · simp at hnew
    · next hr =>
      simp only [Prod.mk.injEq] at hnew
      obtain ⟨rfl⟩ := hnew.2
      rw [space_read_view_delete_effect]
      refine ⟨?_, ?_, ?_, ?_, ?_, ?_⟩
      · rw [b2]
        simp [Heap.tupleFormatRef, Heap.allocSpace, u1, f1]
      · rw [b3]
        simp [Heap.tupleFormatRef, Heap.allocSpace, u2, f2,
          Multiset.erase_cons_head]
      · rw [b1]
        simp [add_tsub_cancel_left, f3, u3, Heap.tupleFormatRef,
          Heap.allocSpace]
      · dsimp only
        rw [b4]
        cases hU : (space_rv_resolve_upgrade s opts h1).1 <;>
          simp [Heap.tupleFormatRef, Heap.allocSpace, u5, hU, f4,
            Multiset.erase_cons_head]
      · rw [b5]
        simp [Heap.tupleFormatRef, Heap.allocSpace, u4, f5,
          Multiset.erase_cons_head]
      · refine le_trans f6 (le_trans u6 (le_trans ?_ b6))
        simp [Heap.tupleFormatRef, Heap.allocSpace]

/-- The tuple format of a successfully built space read view: the shared
nameless runtime format without needs_field_names; a freshly allocated
identity (the heap counter) with it. -/
lemma space_read_view_new_formatId (s : Space) (opts : ReadViewOpts)
    (h : Heap) (srv : SpaceReadView) (h2 : Heap)
    (hnew : space_read_view_new s opts h = (some srv, h2)) :
    (opts.needs_field_names = false → srv.formatId = runtimeFormatId) ∧
    (opts.needs_field_names = true →
      srv.formatId = h.nextId ∧ h.nextId < h2.nextId) := by
  unfold space_read_view_new at hnew
  split at hnew
  · simp at hnew
  · next fmt h1 heq =>
    obtain ⟨u1, u2, u3, u4, u5, u6⟩ := resolve_upgrade_effect s opts h1
    obtain ⟨b1, b2, b3, b4, b5, b6⟩ :=
      build_imap_heap s opts
        ((space_rv_resolve_upgrade s opts h1).2.allocSpace.1) s.index_map
        ((space_rv_resolve_upgrade s opts h1).2.allocSpace.2.tupleFormatRef
          fmt)
    simp only [] at hnew
    split at hnew
    · next hr =>
      simp only [Prod.mk.injEq, Option.some.injEq] at hnew
      obtain ⟨rfl, rfl⟩ := hnew
      constructor
      · intro hn
        rw [resolve_format_of_shared s opts h hn] at heq
        simp only [Prod.mk.injEq, Option.some.injEq] at heq
        exact heq.1.symm
      · intro hn
        cases hd : s.dictOk
        · rw [resolve_format_of_fail s opts h hn (Or.inl hd)] at heq
          simp at heq
        · cases hm : s.fmtOk
          · rw [resolve_format_of_fail s opts h hn (Or.inr hm)] at heq
            simp at heq
          · rw [resolve_format_of_private s opts h hn hd hm] at heq
            simp only [Prod.mk.injEq, Option.some.injEq] at heq
            obtain ⟨hfmt, hh1⟩ := heq
            refine ⟨hfmt.symm, ?_⟩
            have hA : ((space_rv_resolve_upgrade s opts
                h1).2.allocSpace.2.tupleFormatRef fmt).nextId =
                (space_rv_resolve_upgrade s opts h1).2.nextId + 1 := rfl
            have hh1n : h1.nextId = h.nextId + 1 := by rw [← hh1]
            omega
    · simp at hnew

/-! Lemmas for the all-or-nothing rollback of open. -/

lemma coe_append_singleton (l : List Nat) (a : Nat) (X : Multiset Nat) :
    ((l ++ [a] : List Nat) : Multiset Nat) + X =
      a ::ₘ ((l : Multiset Nat) + X) := by
  rw [← Multiset.coe_add]
  rw [show (([a] : List Nat) : Multiset Nat) = a ::ₘ 0 from rfl]
  rw [Multiset.add_cons, add_zero, Multiset.cons_add]

lemma heap_inv_init (h : Heap) :
    heap_inv h { engines := [], spaces := [], owner := none } h := by
  simp [heap_inv, rv_space_ids, rv_index_ids, rv_format_ids, upgrade_ids]

lemma upgrade_ids_append_singleton (l : List SpaceReadView)
    (srv : SpaceReadView) :
    upgrade_ids (l ++ [srv]) =
      upgrade_ids l ++
        (match srv.upgrade with
         | some u => [u.selfId]
         | none => []) := by
  cases hu : srv.upgrade <;> simp [upgrade_ids, hu]

lemma add_space_cb_inv (opts : ReadViewOpts) (s : Space) (rv : ReadView)
    (h h0 : Heap) (ok : Bool) (rv1 : ReadView) (h1 : Heap)
    (hinv : heap_inv h0 rv h)
    (hcb : read_view_add_space_cb opts s rv h = (ok, rv1, h1)) :
    heap_inv h0 rv1 h1 := by
  unfold read_view_add_space_cb at hcb
  split at hcb
  · simp only [Prod.mk.injEq] at hcb
    obtain ⟨-, rfl, rfl⟩ := hcb
    exact hinv
  · split at hcb
    · next hx heq =>
      simp only [Prod.mk.injEq] at hcb
      obtain ⟨-, rfl, rfl⟩ := hcb
      obtain ⟨n1, n2, n3, n4, n5, n6⟩ :=
        space_read_view_new_heap_fail s opts h hx heq
      obtain ⟨v1, v2, v3, v4, v5⟩ := hinv
      exact ⟨n1.trans v1, n2.trans v2, n3.trans v3, n4.trans v4,
        n5.trans v5⟩
    · next srv hx heq =>
      simp only [Prod.mk.injEq] at hcb
      obtain ⟨-, rfl, rfl⟩ := hcb
      obtain ⟨n1, n2, n3, n4, n5, n6⟩ :=
        space_read_view_new_heap_success s opts h srv hx heq
      obtain ⟨v1, v2, v3, v4, v5⟩ := hinv
      refine ⟨?_, ?_, ?_, ?_, ?_⟩
      · simpa [v1] using n1
      · rw [n2, v2]
        simp only [rv_space_ids, List.map_append, List.map_cons,
          List.map_nil]
        rw [coe_append_singleton]
      · rw [n3, v3]
        simp only [rv_index_ids, List.map_append, List.map_cons,
          List.map_nil, List.sum_append, List.sum_cons, List.sum_nil,
          add_zero]
        ac_rfl
      · rw [n4, v4]
        simp only [upgrade_ids_append_singleton]
        cases hu : srv.upgrade with
        | none => simp [hu]
        | some u =>
          simp only [hu]
          rw [coe_append_singleton]
      · rw [n5, v5]
        simp only [rv_format_ids, List.map_append, List.map_cons,
          List.map_nil]
        rw [coe_append_singleton]

lemma space_foreach_inv (opts : ReadViewOpts) :
    ∀ (ss : List Space) (rv : ReadView) (h h0 : Heap),
    heap_inv h0 rv h →
    heap_inv h0 (space_foreach opts ss rv h).2.1
      (space_foreach opts ss rv h).2.2 := by
  intro ss
  induction ss with
  | nil => intro rv h h0 hinv; exact hinv
  | cons s rest ih =>
    intro rv h h0 hinv
    rcases hcb : read_view_add_space_cb opts s rv h with ⟨ok, rv1, h1⟩
    have hinv1 := add_space_cb_inv opts s rv h h0 ok rv1 h1 hinv hcb
    cases ok with
    | true => simpa [space_foreach, hcb] using ih rv1 h1 h0 hinv1
    | false => simpa [space_foreach, hcb] using hinv1

lemma open_engines_inv (opts : ReadViewOpts) :
    ∀ (es : List EngineDesc) (rv : ReadView) (h h0 : Heap),
    heap_inv h0 rv h →
    heap_inv h0 (read_view_open_engines opts es rv h).2.1
      (read_view_open_engines opts es rv h).2.2 := by
  intro es
  induction es with
  | nil => intro rv h h0 hinv; exact hinv
  | cons e rest ih =>
    intro rv h h0 hinv
    by_cases hs : e.supportsReadView
    · by_cases hc : e.createOk
      · have hinv1 : heap_inv h0
            { rv with engines := rv.engines ++ [h.nextId] }
            h.allocEngine.2 := by
          obtain ⟨v1, v2, v3, v4, v5⟩ := hinv
          refine ⟨?_, ?_, ?_, ?_, ?_⟩
          · rw [show h.allocEngine.2.liveEngines =
              h.nextId ::ₘ h.liveEngines from rfl, v1]
            rw [coe_append_singleton]
          · simpa [rv_space_ids] using v2
          · simpa [rv_index_ids] using v3
          · simpa [upgrade_ids] using v4
          · simpa [rv_format_ids] using v5
        simpa [read_view_open_engines, hs, hc] using
          ih _ _ h0 hinv1
      · simpa [read_view_open_engines, hs, hc] using hinv
    · simpa [read_view_open_engines, hs] using ih rv h h0 hinv

lemma fold_free_engines :
    ∀ (es : List Nat) (h : Heap),
    (es.foldl (fun h e => h.freeEngine e) h) =
      { h with liveEngines :=
          h.liveEngines - (↑es : Multiset Nat) } := by
  intro es
  induction es with
  | nil => intro h; simp
  | cons e rest ih =>
    intro h
    rw [List.foldl_cons, ih]
    simp [Heap.freeEngine, ← Multiset.cons_coe, Multiset.sub_cons]

lemma close_spaces_restore :
    ∀ (ss : List SpaceReadView) (h : Heap) (S I U F : Multiset Nat),
    h.liveSpaces = (↑(ss.map SpaceReadView.selfId) : Multiset Nat) + S →
    h.liveIndexes =
      (ss.map (fun srv =>
        (↑(index_map_ids srv.index_map) : Multiset Nat))).sum + I →
    h.liveUpgrades = (↑(upgrade_ids ss) : Multiset Nat) + U →
    h.formatRefs = (↑(ss.map SpaceReadView.formatId) : Multiset Nat) + F →
    (ss.foldl (fun h srv => space_read_view_delete srv h) h).liveSpaces =
        S ∧
    (ss.foldl (fun h srv => space_read_view_delete srv h) h).liveIndexes =
        I ∧
    (ss.foldl (fun h srv => space_read_view_delete srv h) h).liveUpgrades =
        U ∧
    (ss.foldl (fun h srv => space_read_view_delete srv h) h).formatRefs =
        F ∧
    (ss.foldl (fun h srv => space_read_view_delete srv h) h).liveEngines =
        h.liveEngines ∧
    (ss.foldl (fun h srv => space_read_view_delete srv h) h).nextId =
        h.nextId := by
  intro ss
  induction ss with
  | nil =>
    intro h S I U F hS hI hU hF
    simp only [List.foldl_nil]
    simp [upgrade_ids] at hS hI hU hF
    exact ⟨hS, hI, hU, hF, trivial, trivial⟩
  | cons srv rest ih =>
    intro h S I U F hS hI hU hF
    rw [List.foldl_cons]
    have hd := space_read_view_delete_effect srv h
    have h1S : (space_read_view_delete srv h).liveSpaces =
        (↑(rest.map SpaceReadView.selfId) : Multiset Nat) + S := by
      rw [hd]
      dsimp only
      rw [hS]
      simp only [List.map_cons]
      rw [coe_cons_add, Multiset.erase_cons_head]
    have h1I : (space_read_view_delete srv h).liveIndexes =
        (rest.map (fun srv =>
          (↑(index_map_ids srv.index_map) : Multiset Nat))).sum + I := by
      rw [hd]
      dsimp only
      rw [hI]
      simp only [List.map_cons, List.sum_cons]
      rw [add_assoc, add_tsub_cancel_left]
    have h1U : (space_read_view_delete srv h).liveUpgrades =
        (↑(upgrade_ids rest) : Multiset Nat) + U := by
      rw [hd]
      dsimp only
      rw [hU]
      cases hu : srv.upgrade with
      | none => simp [upgrade_ids, hu]
      | some u =>
        simp only [upgrade_ids, List.filterMap_cons, hu, Option.map_some']
        rw [coe_cons_add, Multiset.erase_cons_head]
    have h1F : (space_read_view_delete srv h).formatRefs =
        (↑(rest.map SpaceReadView.formatId) : Multiset Nat) + F := by
      rw [hd]
      dsimp only
      rw [hF]
      simp only [List.map_cons]
      rw [coe_cons_add, Multiset.erase_cons_head]
    obtain ⟨r1, r2, r3, r4, r5, r6⟩ :=
      ih (space_read_view_delete srv h) S I U F h1S h1I h1U h1F
    refine ⟨r1, r2, r3, r4, ?_, ?_⟩
    · rw [r5, hd]
    · rw [r6, hd]

lemma read_view_close_restore (rv : ReadView) (h h0 : Heap)
    (hinv : heap_inv h0 rv h) :
    (read_view_close rv h).liveEngines = h0.liveEngines ∧
    (read_view_close rv h).liveSpaces = h0.liveSpaces ∧
    (read_view_close rv h).liveIndexes = h0.liveIndexes ∧
    (read_view_close rv h).liveUpgrades = h0.liveUpgrades ∧
    (read_view_close rv h).formatRefs = h0.formatRefs := by
  obtain ⟨v1, v2, v3, v4, v5⟩ := hinv
  unfold read_view_close
  obtain ⟨r1, r2, r3, r4, r5, r6⟩ :=
    close_spaces_restore rv.spaces h h0.liveSpaces h0.liveIndexes
      h0.liveUpgrades h0.formatRefs
      (by simpa [rv_space_ids] using v2)
      (by simpa [rv_index_ids] using v3) v4
      (by simpa [rv_format_ids] using v5)
  rw [fold_free_engines]
  refine ⟨?_, r1, r2, r3, r4⟩
  dsimp only
  rw [r5, v1, add_tsub_cancel_left]

lemma open_fail_restore (es : List EngineDesc) (ss : List Space)
    (opts : ReadViewOpts) (h : Heap) (rvO : Option ReadView) (h2 : Heap)
    (hopen : read_view_open es ss opts h = (false, rvO, h2)) :
    rvO = none ∧
    h2.liveEngines = h.liveEngines ∧ h2.liveSpaces = h.liveSpaces ∧
    h2.liveIndexes = h.liveIndexes ∧ h2.liveUpgrades = h.liveUpgrades ∧
    h2.formatRefs = h.formatRefs := by
  unfold read_view_open at hopen
  simp only [] at hopen
  rcases heng : read_view_open_engines opts es
      { engines := [], spaces := [], owner := none } h with ⟨okE, rv1, h1⟩
  rw [heng] at hopen
  have hiE := open_engines_inv opts es
    { engines := [], spaces := [], owner := none } h h (heap_inv_init h)
  rw [heng] at hiE
  dsimp only at hiE
  cases okE with
  | false =>
    simp only [Prod.mk.injEq] at hopen
    obtain ⟨-, rfl, rfl⟩ := hopen
    obtain ⟨c1, c2, c3, c4, c5⟩ := read_view_close_restore rv1 h1 h hiE
    exact ⟨rfl, c1, c2, c3, c4, c5⟩
  | true =>
    rcases hfe : space_foreach opts ss rv1 h1 with ⟨okS, rv2, h2x⟩
    simp only [hfe] at hopen
    have hiS := space_foreach_inv opts ss rv1 h1 h hiE
    rw [hfe] at hiS
    dsimp only at hiS
    cases okS with
    | false =>
      simp only [Prod.mk.injEq] at hopen
      obtain ⟨-, rfl, rfl⟩ := hopen
      obtain ⟨c1, c2, c3, c4, c5⟩ := read_view_close_restore rv2 h2x h hiS
      exact ⟨rfl, c1, c2, c3, c4, c5⟩
    | true => simp at hopen

/-! Lemmas about activation and deactivation. -/

lemma readview_eta_owner (rv : ReadView) (h : rv.owner = none) :
    { rv with owner := none } = rv := by
  cases rv with
  | mk e s o =>
    simp only at h
    rw [h]

lemma activate_loop_rv (rv : ReadView) :
    ∀ (ss : List SpaceReadView) (act : List Nat) (tr : List Event),
    (read_view_activate_loop rv ss act tr).2.1 =
      (if (read_view_activate_loop rv ss act tr).1 then rv
       else { rv with owner := none }) := by
  intro ss
  induction ss with
  | nil => intro act tr; simp [read_view_activate_loop]
  | cons srv rest ih =>
    intro act tr
    cases hu : srv.upgrade with
    | none => simp [read_view_activate_loop, hu, ih]
    | some u =>
      by_cases ha : u.activateOk
      · simp [read_view_activate_loop, hu, ha, ih]
      · simp [read_view_activate_loop, hu, ha, read_view_deactivate]

lemma foldl_erase_toMultiset :
    ∀ (l act : List Nat),
    ((l.foldl (fun a u => a.erase u) act : List Nat) : Multiset Nat) =
      (act : Multiset Nat) - (l : Multiset Nat) := by
  intro l
  induction l with
  | nil => intro act; simp
  | cons a l ih =>
    intro act
    rw [List.foldl_cons, ih, ← Multiset.cons_coe, Multiset.sub_cons,
      Multiset.coe_erase]

lemma deactivate_act_nil (rv : ReadView) (act : List Nat)
    (hsub : (act : Multiset Nat) ≤ (↑(space_upgrades rv) : Multiset Nat)) :
    (read_view_deactivate rv act).2.1 = [] := by
  unfold read_view_deactivate
  dsimp only
  have hups : space_upgrades { rv with owner := none } =
      space_upgrades rv := rfl
  rw [hups]
  have hms := foldl_erase_toMultiset (space_upgrades rv) act
  rw [tsub_eq_zero_of_le hsub] at hms
  exact (Multiset.coe_eq_zero _).mp hms

lemma activate_loop_fail_act (rv : ReadView) :
    ∀ (ss : List SpaceReadView) (act : List Nat) (tr : List Event),
    ((act : Multiset Nat) + (↑(upgrade_ids ss) : Multiset Nat) ≤
      (↑(space_upgrades rv) : Multiset Nat)) →
    (read_view_activate_loop rv ss act tr).1 = false →
    (read_view_activate_loop rv ss act tr).2.2.1 = [] := by
  intro ss
  induction ss with
  | nil =>
    intro act tr _ hfail
    simp [read_view_activate_loop] at hfail
  | cons srv rest ih =>
    intro act tr hle hfail
    cases hu : srv.upgrade with
    | none =>
      have hfail2 : (read_view_activate_loop rv rest act tr).1 = false := by
        simpa [read_view_activate_loop, hu] using hfail
      have hle2 : (act : Multiset Nat) +
          (↑(upgrade_ids rest) : Multiset Nat) ≤
          (↑(space_upgrades rv) : Multiset Nat) := by
        simpa [upgrade_ids, hu] using hle
      simpa [read_view_activate_loop, hu] using ih act tr hle2 hfail2
    | some u =>
      by_cases ha : u.activateOk
      · have hfail2 : (read_view_activate_loop rv rest (u.selfId :: act)
            (tr ++ [Event.activateUpgrade u.selfId])).1 = false := by
          simpa [read_view_activate_loop, hu, ha] using hfail
        have hms : ((u.selfId :: act : List Nat) : Multiset Nat) +
            (↑(upgrade_ids rest) : Multiset Nat) =
            (act : Multiset Nat) +
              (↑(upgrade_ids (srv :: rest)) : Multiset Nat) := by
          simp only [upgrade_ids, List.filterMap_cons, hu,
            Option.map_some']
          rw [← Multiset.cons_coe, ← Multiset.cons_coe,
            Multiset.cons_add, Multiset.add_cons]
        have hle2 : ((u.selfId :: act : List Nat) : Multiset Nat) +
            (↑(upgrade_ids rest) : Multiset Nat) ≤
            (↑(space_upgrades rv) : Multiset Nat) := by
          rw [hms]; exact hle
        simpa [read_view_activate_loop, hu, ha] using
          ih (u.selfId :: act) (tr ++ [Event.activateUpgrade u.selfId])
            hle2 hfail2
      · simp only [read_view_activate_loop, hu, ha, Bool.false_eq_true,
          if_false]
        refine deactivate_act_nil rv act ?_
        exact le_trans (self_le_add_right _ _) hle

/-! The claim theorems. -/

/-- C1: a space enumerated during open receives a space read view iff, in
this exact order, (1) its engine advertises read view support, (2) it is
not temporary or needs_temporary_spaces is set, (3) the space filter
accepts it; a space failing any test is skipped without error, and when
one of the first two tests fails the decision does not consult the space
filter (it is the same for every filter). -/
theorem c1_space_eligibility (opts : ReadViewOpts) (s : Space)
    (rv : ReadView) (h : Heap) :
    (space_is_eligible opts s = false →
      read_view_add_space_cb opts s rv h = (true, rv, h)) ∧
    (space_is_eligible opts s = true →
      (∀ srv h2, space_read_view_new s opts h = (some srv, h2) →
        read_view_add_space_cb opts s rv h =
          (true, { rv with spaces := rv.spaces ++ [srv] }, h2)) ∧
      (∀ h2, space_read_view_new s opts h = (none, h2) →
        read_view_add_space_cb opts s rv h = (false, rv, h2))) ∧
    (∀ g, (!s.engineSupportsReadView ||
        (s.temporary && !opts.needs_temporary_spaces)) = true →
      read_view_add_space_cb { opts with filter_space := g } s rv h =
        (true, rv, h)) := by
  have hkey : (!s.engineSupportsReadView ||
      (s.temporary && !opts.needs_temporary_spaces) ||
      !opts.filter_space s) = !space_is_eligible opts s := by
    unfold space_is_eligible
    cases hb1 : s.engineSupportsReadView <;> cases hb2 : s.temporary <;>
      cases hb3 : opts.needs_temporary_spaces <;>
        cases hb4 : opts.filter_space s <;> rfl
  refine ⟨?_, ?_, ?_⟩
  · intro hne
    simp [read_view_add_space_cb, hkey, hne]
  · intro hel
    constructor
    · intro srv h2 hnew
      simp [read_view_add_space_cb, hkey, hel, hnew]
    · intro h2 hnew
      simp [read_view_add_space_cb, hkey, hel, hnew]
  · intro g hcond
    have hall : (!s.engineSupportsReadView ||
        (s.temporary && !opts.needs_temporary_spaces) || !g s) = true := by
      rcases Bool.or_eq_true_iff.mp hcond with h1 | h2
      · simp [h1]
      · simp [h2]
    simp [read_view_add_space_cb, hall]

/-- C1 witness: a temporary space on a capable engine with default options
is skipped without error, leaving the read view and the heap unchanged. -/
theorem c1_space_eligibility_witness :
    read_view_add_space_cb sampleOpts sampleSpaceTemp
      { engines := [], spaces := [], owner := none } heap0 =
      (true, { engines := [], spaces := [], owner := none }, heap0) :=
  (c1_space_eligibility sampleOpts sampleSpaceTemp
    { engines := [], spaces := [], owner := none } heap0).1 (by decide)

/-- C2: whenever open fails, no read view is produced, and every engine,
space and index read view (and every tuple format reference) built on the
way has been destroyed, so the live-object state of the heap is exactly
what it was before the call. -/
theorem c2_open_rollback (es : List EngineDesc) (ss : List Space)
    (opts : ReadViewOpts) (h : Heap) (rvO : Option ReadView) (h2 : Heap)
    (hopen : read_view_open es ss opts h = (false, rvO, h2)) :
    rvO = none ∧
    h2.liveEngines = h.liveEngines ∧ h2.liveSpaces = h.liveSpaces ∧
    h2.liveIndexes = h.liveIndexes ∧ h2.liveUpgrades = h.liveUpgrades ∧
    h2.formatRefs = h.formatRefs :=
  open_fail_restore es ss opts h rvO h2 hopen

/-- C2 witness: an open failing at the second index of its only space
returns failure with no read view, and the failure heap holds no live
engine, space or index read view and no format reference. -/
theorem c2_open_rollback_witness :
    (none : Option ReadView) = none ∧
    sampleOpenFail.2.2.liveEngines = heap0.liveEngines ∧
    sampleOpenFail.2.2.liveSpaces = heap0.liveSpaces ∧
    sampleOpenFail.2.2.liveIndexes = heap0.liveIndexes ∧
    sampleOpenFail.2.2.liveUpgrades = heap0.liveUpgrades ∧
    sampleOpenFail.2.2.formatRefs = heap0.formatRefs :=
  c2_open_rollback [sampleEngine] [sampleSpaceBad] sampleOpts heap0 none
    sampleOpenFail.2.2 (by decide)

/-- C4: process_result with no upgrade snapshot returns the very same
record; with an upgrade snapshot it returns the collaborator transform
applied to the record (the record itself, an immutable value of the
embedding, is untouched); when the transform fails the result is null. -/
theorem c4_process_result (apply : Nat → Tuple → Option Tuple)
    (srv : SpaceReadView) (t : Tuple) :
    (srv.upgrade = none → read_view_process_result apply srv t = some t) ∧
    (∀ u, srv.upgrade = some u →
      read_view_process_result apply srv t = apply u.selfId t) ∧
    (∀ u, srv.upgrade = some u → apply u.selfId t = none →
      read_view_process_result apply srv t = none) := by
  refine ⟨?_, ?_, ?_⟩
  · intro hu
    simp [read_view_process_result, hu]
  · intro u hu
    simp [read_view_process_result, hu]
  · intro u hu hap
    simp [read_view_process_result, hu, hap]

/-- C4 witness: with no upgrade the input record comes back unchanged, and
with an upgrade whose transform fails the result is null. -/
theorem c4_process_result_witness :
    read_view_process_result (fun _ t => some (t + 1))
      sampleSrvNoUpgrade 5 = some 5 ∧
    read_view_process_result (fun _ _ => none) sampleSrvUpgradeOk 5 =
      none :=
  ⟨(c4_process_result (fun _ t => some (t + 1)) sampleSrvNoUpgrade 5).1
      rfl,
   (c4_process_result (fun _ _ => none) sampleSrvUpgradeOk 5).2.2
      { selfId := 10, activateOk := true } rfl rfl⟩

/-- C10: the requirement that the record given to process_result is
non-null is enforced only by the debug assertion block, which rejects a
null record and accepts any non-null record from the owning thread. -/
theorem c10_null_record_assert (owner : Option Nat) (caller : Nat) :
    read_view_process_result_debug_checks owner caller none = false ∧
    (∀ t : Tuple, owner = some caller →
      read_view_process_result_debug_checks owner caller (some t) =
        true) := by
  constructor
  · rfl
  · intro t hown
    subst hown
    simp [read_view_process_result_debug_checks]

/-- C10 witness: concrete null and non-null records against an owning
caller. -/
theorem c10_null_record_assert_witness :
    read_view_process_result_debug_checks (some 7) 7 none = false ∧
    read_view_process_result_debug_checks (some 7) 7 (some 3) = true :=
  ⟨(c10_null_record_assert (some 7) 7).1,
   (c10_null_record_assert (some 7) 7).2 3 rfl⟩

/-- C3: when activate fails on some space upgrade, it returns failure and
the aggregate is left exactly in its prior inactive state: the read view
is unchanged (owning thread back to null, so close is legal) and no
upgrade transform remains active — every transform activated during the
call has been deactivated again. -/
theorem c3_activate_rollback (caller : Nat) (rv : ReadView)
    (hown : rv.owner = none)
    (hfail : (read_view_activate caller rv []).1 = false) :
    (read_view_activate caller rv []).2.1 = rv ∧
    (read_view_activate caller rv []).2.2.1 = [] ∧
    (read_view_activate caller rv []).2.1.owner = none := by
  have hact : read_view_activate caller rv [] =
      read_view_activate_loop { rv with owner := some caller }
        ({ rv with owner := some caller } : ReadView).spaces []
        [Event.setOwner (some caller)] := rfl
  rw [hact] at hfail ⊢
  have h1 := activate_loop_rv { rv with owner := some caller }
    ({ rv with owner := some caller } : ReadView).spaces []
    [Event.setOwner (some caller)]
  simp only [hfail, Bool.false_eq_true, if_false] at h1
  have h2 := activate_loop_fail_act { rv with owner := some caller }
    ({ rv with owner := some caller } : ReadView).spaces []
    [Event.setOwner (some caller)] (by simp [space_upgrades]) hfail
  refine ⟨?_, h2, ?_⟩
  · rw [h1]
    exact readview_eta_owner rv hown
  · rw [h1]

/-- C3 witness: a read view whose second space fails to activate comes
back unchanged with an empty active set. -/
theorem c3_activate_rollback_witness :
    (read_view_activate 7 sampleRvFailing []).2.1 = sampleRvFailing ∧
    (read_view_activate 7 sampleRvFailing []).2.2.1 = [] ∧
    (read_view_activate 7 sampleRvFailing []).2.1.owner = none :=
  c3_activate_rollback 7 sampleRvFailing rfl (by decide)

/-- C5: two space read views of the same space built in the same run share
the identity of the single nameless runtime format when needs_field_names
is unset; with it set each holds a distinct fresh format, neither being
the shared one. -/
theorem c5_format_identity (s : Space) (opts : ReadViewOpts)
    (h1 h3 : Heap) (srv1 srv2 : SpaceReadView) (h2 h4 : Heap)
    (hn1 : space_read_view_new s opts h1 = (some srv1, h2))
    (hn2 : space_read_view_new s opts h3 = (some srv2, h4))
    (horder : h2.nextId ≤ h3.nextId)
    (hpos : 0 < h1.nextId) :
    (opts.needs_field_names = false →
      srv1.formatId = runtimeFormatId ∧
      srv2.formatId = runtimeFormatId) ∧
    (opts.needs_field_names = true →
      srv1.formatId ≠ srv2.formatId ∧
      srv1.formatId ≠ runtimeFormatId ∧
      srv2.formatId ≠ runtimeFormatId) := by
  obtain ⟨f1s, f1p⟩ := space_read_view_new_formatId s opts h1 srv1 h2 hn1
  obtain ⟨f2s, f2p⟩ := space_read_view_new_formatId s opts h3 srv2 h4 hn2
  constructor
  · intro hn
    exact ⟨f1s hn, f2s hn⟩
  · intro hn
    obtain ⟨e1, l1⟩ := f1p hn
    obtain ⟨e2, l2⟩ := f2p hn
    refine ⟨?_, ?_, ?_⟩ <;> simp only [e1, e2, runtimeFormatId] <;> omega

/-- C5 witness: two private-format constructions over the same space give
formats 1 and 5, both distinct and distinct from the shared format 0. -/
theorem c5_format_identity_witness :
    (sampleOptsNames.needs_field_names = false →
      sampleSrvNames1.formatId = runtimeFormatId ∧
      sampleSrvNames2.formatId = runtimeFormatId) ∧
    (sampleOptsNames.needs_field_names = true →
      sampleSrvNames1.formatId ≠ sampleSrvNames2.formatId ∧
      sampleSrvNames1.formatId ≠ runtimeFormatId ∧
      sampleSrvNames2.formatId ≠ runtimeFormatId) :=
  c5_format_identity sampleSpace sampleOptsNames heap0 sampleHeapNames1
    sampleSrvNames1 sampleSrvNames2 sampleHeapNames1 sampleHeapNames2
    (by decide) (by decide) (by decide) (by decide)

/-- C6: index lookup on a space read view is null for every id above the
max index id (the bound is tested before the index array is read) and,
for every id within bound, yields an index read view exactly when the
space had a live index there that the index filter accepted. -/
theorem c6_index_lookup (s : Space) (opts : ReadViewOpts) (h : Heap)
    (srv : SpaceReadView) (h2 : Heap)
    (hnew : space_read_view_new s opts h = (some srv, h2))
    (hwf : s.index_map.length = s.index_id_max + 1) :
    (∀ i, srv.index_id_max < i → space_read_view_index srv i = none) ∧
    (∀ i, i ≤ srv.index_id_max →
      (space_read_view_index srv i).isSome =
        slot_accepted opts s (s.index_map.getD i none)) := by
  obtain ⟨-, -, -, hmax, hlen, hback, hsome⟩ :=
    space_read_view_new_success s opts h srv h2 hnew
  constructor
  · intro i hi
    unfold space_read_view_index
    rw [if_neg (by omega)]
  · intro i hi
    unfold space_read_view_index
    rw [if_pos hi]
    exact hsome i

/-- C6 witness: with the even-iid filter on a two-index space, lookup is
non-null at id 0, null at id 1 (filtered out) and null at id 2 (above the
max index id). -/
theorem c6_index_lookup_witness :
    (∀ i, sampleSrvEven.index_id_max < i →
      space_read_view_index sampleSrvEven i = none) ∧
    (∀ i, i ≤ sampleSrvEven.index_id_max →
      (space_read_view_index sampleSrvEven i).isSome =
        slot_accepted sampleOptsEvenIndexes sampleSpace
          (sampleSpace.index_map.getD i none)) :=
  c6_index_lookup sampleSpace sampleOptsEvenIndexes heap0 sampleSrvEven
    sampleHeapEven (by decide) (by decide)

/-- C7 counterexample: deactivate on an active read view with one upgraded
space emits the owner clearing before the upgrade deactivation, so the
order the claim states (upgrades first, then the owner) is violated. -/
theorem c7_counterexample :
    sampleRvActive.owner = some 7 ∧
    (read_view_deactivate sampleRvActive []).2.2 ≠
      read_view_deactivate_claimed_trace sampleRvActive := by
  exact ⟨rfl, by decide⟩

/-- C7 (amended): for every active read view whose owning thread equals
the caller, deactivate first clears the owning thread to null and then
deactivates the upgrade transform of every space in list order. -/
theorem c7_deactivate_order (rv : ReadView) (act : List Nat) (caller : Nat)
    (hown : rv.owner = some caller) :
    (read_view_deactivate rv act).2.2 =
      Event.setOwner none ::
        (space_upgrades rv).map Event.deactivateUpgrade ∧
    (read_view_deactivate rv act).1 = { rv with owner := none } := by
  exact ⟨rfl, rfl⟩

/-- C7 witness: the amended order on a concrete active read view. -/
theorem c7_deactivate_order_witness :
    (read_view_deactivate sampleRvActive []).2.2 =
      Event.setOwner none ::
        (space_upgrades sampleRvActive).map Event.deactivateUpgrade ∧
    (read_view_deactivate sampleRvActive []).1 =
      { sampleRvActive with owner := none } :=
  c7_deactivate_order sampleRvActive [] 7 rfl

/-- C8: every non-null slot of the index map of a freshly built space read
view back-references that space read view, the stored max index id equals
the space max index id (also when the filter rejected every index, the
witness case), and the lifecycle operations never touch the space list,
so the invariant persists until deletion. -/
theorem c8_backref_invariant (s : Space) (opts : ReadViewOpts) (h : Heap)
    (srv : SpaceReadView) (h2 : Heap)
    (hnew : space_read_view_new s opts h = (some srv, h2)) :
    (∀ i irv, srv.index_map.getD i none = some irv →
      irv.space = srv.selfId) ∧
    srv.index_id_max = s.index_id_max ∧
    srv.index_map.length = s.index_map.length ∧
    (∀ caller rv act,
      ((read_view_activate caller rv act).2.1).spaces = rv.spaces) ∧
    (∀ rv act, ((read_view_deactivate rv act).1).spaces = rv.spaces) := by
  obtain ⟨-, -, -, hmax, hlen, hback, -⟩ :=
    space_read_view_new_success s opts h srv h2 hnew
  refine ⟨hback, hmax, hlen, ?_, ?_⟩
  · intro caller rv act
    have h1 := activate_loop_rv { rv with owner := some caller }
      ({ rv with owner := some caller } : ReadView).spaces act
      [Event.setOwner (some caller)]
    rw [show (read_view_activate caller rv act).2.1 =
      (read_view_activate_loop { rv with owner := some caller }
        ({ rv with owner := some caller } : ReadView).spaces act
        [Event.setOwner (some caller)]).2.1 from rfl, h1]
    split <;> rfl
  · intro rv act
    rfl

/-- C8 witness: the all-rejecting index filter yields an all-null index
map while the max index id of the space is preserved. -/
theorem c8_backref_invariant_witness :
    (∀ i irv, sampleSrvNoIdx.index_map.getD i none = some irv →
      irv.space = sampleSrvNoIdx.selfId) ∧
    sampleSrvNoIdx.index_id_max = sampleSpace.index_id_max ∧
    sampleSrvNoIdx.index_map.length = sampleSpace.index_map.length ∧
    (∀ caller rv act,
      ((read_view_activate caller rv act).2.1).spaces = rv.spaces) ∧
    (∀ rv act, ((read_view_deactivate rv act).1).spaces = rv.spaces) :=
  c8_backref_invariant sampleSpace sampleOptsNoIndexes heap0
    sampleSrvNoIdx sampleHeapNoIdx (by decide)

/-- C9: activate and deactivate leave every structural field of the read
view unchanged — the result is the input read view with only the
owning-thread field replaced (the caller on successful activation, null
on failed activation and on deactivation).  In this embedding
process_result returns only the processed tuple and takes no mutable
state, so it can change nothing. -/
theorem c9_frame (caller : Nat) (rv : ReadView) (act : List Nat) :
    (read_view_activate caller rv act).2.1 =
      { rv with owner :=
          if (read_view_activate caller rv act).1 then some caller
          else none } ∧
    (read_view_deactivate rv act).1 = { rv with owner := none } := by
  constructor
  · have h1 := activate_loop_rv { rv with owner := some caller }
      ({ rv with owner := some caller } : ReadView).spaces act
      [Event.setOwner (some caller)]
    rw [show (read_view_activate caller rv act).2.1 =
      (read_view_activate_loop { rv with owner := some caller }
        ({ rv with owner := some caller } : ReadView).spaces act
        [Event.setOwner (some caller)]).2.1 from rfl, h1]
    rw [show (read_view_activate caller rv act).1 =
      (read_view_activate_loop { rv with owner := some caller }
        ({ rv with owner := some caller } : ReadView).spaces act
        [Event.setOwner (some caller)]).1 from rfl]
    split <;> rfl
  · rfl

end Tarantool
